import Mathlib

/-!
Verification of the PMC drug-research PDF retrieval pipeline
(src/streamlit/app.py), shallowly embedded in Lean 4.

Bytes are modelled as lists of naturals; files on disk as
`Option Bytes` (none = path does not exist).  External library calls
(gzip decompression, tar parsing, network fetches) are modelled as
oracle functions supplied through environment records; an oracle
returning `none` models the library call raising.
-/

set_option maxRecDepth 40000

namespace PMCRetrieval

abbrev Bytes := List Nat

/-- The 5-byte ASCII header b"%PDF-". -/
def pdfHeader : Bytes := [0x25, 0x50, 0x44, 0x46, 0x2D]

/-- The 5-byte ASCII marker b"%%EOF". -/
def eofMarker : Bytes := [0x25, 0x25, 0x45, 0x4F, 0x46]

/-- The gzip magic number b"\x1f\x8b". -/
def gzipMagic : Bytes := [0x1F, 0x8B]

/-- Python str.endswith, modelled on the character list of the string. -/
def endsWithStr (s suf : String) : Bool :=
  decide (s.data.drop (s.data.length - suf.data.length) = suf.data)

/-- Python bytes containment test (b"x" in b): does needle occur
contiguously in hay? -/
def containsSub (needle : Bytes) : Bytes → Bool
  | [] => needle.isEmpty
  | b :: rest =>
    decide (needle = (b :: rest).take needle.length) || containsSub needle rest

/-- The last n bytes of a byte string (the result of seek(-n, 2) + read(n)
when the file has at least n bytes). -/
def lastBytes (n : Nat) (bs : Bytes) : Bytes := bs.drop (bs.length - n)

/-- is_valid_pdf from src/streamlit/app.py: the file exists, has size at
least 5000, starts with b"%PDF-" and has b"%%EOF" among its last 10
bytes.  Any exception (modelled away by totality: the checks below can
not fail once the size check passed) yields false. -/
def is_valid_pdf (file : Option Bytes) : Bool :=
  match file with
  | none => false
  | some bs =>
    if bs.length < 5000 then false
    else decide (bs.take 5 = pdfHeader) && containsSub eofMarker (lastBytes 10 bs)

/-- Outcome of one external network request: err models the underlying
HTTP (or parsing) call raising, ok carries the parsed response. -/
inductive NetResult (α : Type) where
  | err : NetResult α
  | ok : α → NetResult α

/-- The esearchresult object of the search API JSON response;
idlist = none models a response in which the idlist key is missing. -/
structure ESearchResult where
  idlist : Option (List String)
deriving DecidableEq

/-- The top-level search API JSON response; esearchresult = none models
a response in which the esearchresult key is missing. -/
structure ESearchData where
  esearchresult : Option ESearchResult
deriving DecidableEq

/-- The article link template of search_pmc_articles. -/
def articleLink (id : String) : String :=
  "https://www.ncbi.nlm.nih.gov/pmc/articles/PMC" ++ id ++ "/"

/-- search_pmc_articles from src/streamlit/app.py.  The function has no
try/except, so a raising request or JSON parse (NetResult.err)
propagates to the caller, modelled as Except.error.  Missing keys fall
back to defaults ({} and []) via dict.get. -/
def search_pmc_articles (resp : NetResult ESearchData) :
    Except Unit (List String × List String) :=
  match resp with
  | .err => .error ()
  | .ok data =>
    let pmc_ids : List String :=
      match data.esearchresult with
      | none => []
      | some r => r.idlist.getD []
    .ok (pmc_ids, pmc_ids.map articleLink)

/-- One link element of the OA service XML response: format and href
are the two attributes, none modelling an absent attribute. -/
structure LinkElem where
  format : Option String
  href : Option String
deriving DecidableEq

/-- The scan loop of get_pdf_link_from_pmcid over the link elements:
none = the loop ran to completion without a format="pdf" element;
some h = the first such element was found and its href attribute lookup
gave h (h = none modelling the KeyError raised by attrib["href"] when
the attribute is missing, caught by the enclosing except). -/
def scanLinks : List LinkElem → Option (Option String)
  | [] => none
  | l :: ls => if l.format = some "pdf" then some l.href else scanLinks ls

/-- get_pdf_link_from_pmcid from src/streamlit/app.py.  Everything
(request, XML parse, attribute lookup) sits inside try/except with
except returning None; falling off the loop also returns None. -/
def get_pdf_link_from_pmcid (resp : NetResult (List LinkElem)) : Option String :=
  match resp with
  | .err => none
  | .ok links =>
    match scanLinks links with
    | none => none
    | some none => none
    | some (some h) => some h

/-- Python three-valued function result: True, False, or the implicit
None of falling off the end of a function. -/
inductive PyRet where
  | pyTrue : PyRet
  | pyFalse : PyRet
  | pyNone : PyRet
deriving DecidableEq

/-- Python truthiness of a PyRet value (None is falsy). -/
def PyRet.truthy : PyRet → Bool
  | .pyTrue => true
  | _ => false

/-- One member of a tar archive: its name and its content bytes. -/
structure TarMember where
  name : String
  content : Bytes
deriving DecidableEq

/-- The member scan of extract_pdf_from_tar_gz: the first member whose
name ends in ".pdf". -/
def findPdfMember : List TarMember → Option TarMember
  | [] => none
  | m :: ms => if endsWithStr m.name ".pdf" then some m else findPdfMember ms

/-- extract_pdf_from_tar_gz from src/streamlit/app.py.  tarOpen models
tarfile.open + getmembers (none = raises, e.g. not a gzip tar);
tarFile is the content at tar_path (none = missing file, so open
raises).  Returns the Python return value together with the new content
at output_path: pyTrue extracts the first ".pdf" member and renames it
onto output_path; an open failure is caught and returns False; a
completed loop without a ".pdf" member falls off the function and
returns the implicit None. -/
def extract_pdf_from_tar_gz (tarOpen : Bytes → Option (List TarMember))
    (tarFile : Option Bytes) (save : Option Bytes) : PyRet × Option Bytes :=
  match tarFile with
  | none => (.pyFalse, save)
  | some bs =>
    match tarOpen bs with
    | none => (.pyFalse, save)
    | some members =>
      match findPdfMember members with
      | none => (.pyNone, save)
      | some m => (.pyTrue, some m.content)

/-- Environment of download_pdf: fetch n is the outcome of
download_stream on attempt n (none = raises; some raw = temp file
written with raw); gunzip models safe_gunzip, i.e. gzip.decompress
with any exception mapped to none; tarOpen as above. -/
structure DLEnv where
  fetch : Nat → Option Bytes
  gunzip : Bytes → Option Bytes
  tarOpen : Bytes → Option (List TarMember)

/-- The two files download_pdf touches: the temp file save_path + ".tmp"
and the final file save_path; none = the path does not exist. -/
structure FS where
  temp : Option Bytes
  save : Option Bytes
deriving DecidableEq

/-- How one loop iteration of download_pdf ends: success = return True;
hardFail = return False (leaving the whole retry loop, no sleep);
softFail = fall through to time.sleep(1) and the next iteration. -/
inductive AttemptOut where
  | success : AttemptOut
  | hardFail : AttemptOut
  | softFail : AttemptOut
deriving DecidableEq

/-- Python truthiness of safe_gunzip's result: None and b"" are falsy. -/
def truthyBytes : Option Bytes → Bool
  | none => false
  | some bs => !bs.isEmpty

/-- The tail of the loop body of download_pdf: write the (possibly
reassigned) raw bytes to save_path, remove the temp file if present,
and return True when is_valid_pdf accepts save_path, otherwise fall
through to the sleep. -/
def finishWrite (raw : Bytes) : AttemptOut × FS :=
  if is_valid_pdf (some raw) then (.success, ⟨none, some raw⟩)
  else (.softFail, ⟨none, some raw⟩)

/-- The elif branch of download_pdf for a gzip-magic payload: on a
truthy decompression the decompressed bytes replace raw and flow into
the final write; otherwise the temp file is removed and the function
returns False. -/
def gzipStep (env : DLEnv) (raw : Bytes) (fs : FS) : AttemptOut × FS :=
  match env.gunzip raw with
  | some d => if d.isEmpty then (.hardFail, { fs with temp := none }) else finishWrite d
  | none => (.hardFail, { fs with temp := none })

/-- One iteration of the retry loop of download_pdf (attempt number n),
transcribing its try/except body.  A raising download_stream is caught
by the except, which removes the temp file. -/
def runAttempt (env : DLEnv) (url : String) (n : Nat) (fs : FS) : AttemptOut × FS :=
  match env.fetch n with
  | none => (.softFail, { fs with temp := none })
  | some raw =>
    if endsWithStr url ".tar.gz" || decide (raw.take 2 = gzipMagic) then
      if endsWithStr url ".tar.gz" then
        if (extract_pdf_from_tar_gz env.tarOpen (some raw) fs.save).1.truthy then
          if is_valid_pdf (extract_pdf_from_tar_gz env.tarOpen (some raw) fs.save).2 then
            (.success, ⟨none, (extract_pdf_from_tar_gz env.tarOpen (some raw) fs.save).2⟩)
          else finishWrite raw
        else
          if raw.take 2 = gzipMagic then gzipStep env raw { fs with temp := some raw }
          else finishWrite raw
      else gzipStep env raw { fs with temp := some raw }
    else finishWrite raw

/-- Result of download_pdf: the returned boolean, the final state of
the two files, the number of download attempts performed, and the
number of time.sleep(1) calls executed. -/
structure DLResult where
  ok : Bool
  fs : FS
  attempts : Nat
  sleeps : Nat
deriving DecidableEq

/-- The retry loop of download_pdf: left attempts remain, the next one
being attempt number next; att and sl accumulate attempts and sleeps. -/
def download_pdf_aux (env : DLEnv) (url : String) :
    Nat → Nat → Nat → Nat → FS → DLResult
  | 0, _, att, sl, fs => ⟨false, fs, att, sl⟩
  | left + 1, next, att, sl, fs =>
    match runAttempt env url next fs with
    | (.success, fs1) => ⟨true, fs1, att + 1, sl⟩
    | (.hardFail, fs1) => ⟨false, fs1, att + 1, sl⟩
    | (.softFail, fs1) => download_pdf_aux env url left (next + 1) (att + 1) (sl + 1) fs1

/-- download_pdf from src/streamlit/app.py: up to retries attempts
(default 3) starting from fresh temp and save paths. -/
def download_pdf (env : DLEnv) (url : String) (retries : Nat := 3) : DLResult :=
  download_pdf_aux env url retries 1 0 0 ⟨none, none⟩

/-- Environment of the driver loop: per-ID resolution (a composition of
get_pdf_link_from_pmcid with the network), the download_pdf outcome per
(url, save path), and the save path template of the driver. -/
structure DriverEnv where
  resolve : String → Option String
  download : String → String → Bool
  savePathOf : String → String

/-- The module-level driver loop of src/streamlit/app.py: iterate the
returned PMC ids in order, break once download_count reaches max_pdfs,
skip an id whose resolution is falsy (None or an empty href), and on a
true download_pdf increment the count and append the save path to the
downloaded-files list. -/
def driverLoop (env : DriverEnv) (maxPdfs : Nat) :
    List String → Nat → List String → Nat × List String
  | [], count, files => (count, files)
  | pmcid :: rest, count, files =>
    if maxPdfs ≤ count then (count, files)
    else
      match env.resolve pmcid with
      | none => driverLoop env maxPdfs rest count files
      | some url =>
        if url.data.isEmpty then driverLoop env maxPdfs rest count files
        else
          if env.download url (env.savePathOf pmcid) then
            driverLoop env maxPdfs rest (count + 1) (files ++ [env.savePathOf pmcid])
          else driverLoop env maxPdfs rest count files

/-- One driver run: download_count starts at 0 and the
downloaded-files list is reset to [] before the loop. -/
def runDriver (env : DriverEnv) (maxPdfs : Nat) (pmc_ids : List String) :
    Nat × List String :=
  driverLoop env maxPdfs pmc_ids 0 []

/-! ## Concrete test environments -/

/-- Environment in which every fetch delivers a gzip-magic payload
whose decompression raises. -/
def c2Env : DLEnv := ⟨fun _ => some [0x1F, 0x8B, 0], fun _ => none, fun _ => none⟩

/-- Environment in which every fetch raises. -/
def c3Env : DLEnv := ⟨fun _ => none, fun _ => none, fun _ => none⟩

/-- A gzip-magic byte payload standing for a downloaded .tar.gz file. -/
def c9Raw : Bytes := [0x1F, 0x8B, 9, 9]

/-- Environment in which every fetch delivers c9Raw, decompression
succeeds with different bytes, and the tar archive holds one small
(hence invalid) .pdf member. -/
def c9Env : DLEnv :=
  ⟨fun _ => some c9Raw, fun _ => some [0, 1, 2], fun _ => some [⟨"a.pdf", [1]⟩]⟩

/-- Driver environment in which every id resolves and every download
succeeds. -/
def c4DriverEnv : DriverEnv := ⟨fun _ => some "u", fun _ _ => true, fun s => s⟩

/-- Driver environment in which no id resolves. -/
def c5DriverEnv : DriverEnv := ⟨fun _ => none, fun _ _ => false, fun s => s⟩

/-- A tar oracle whose archive opens and holds a single non-pdf
member. -/
def c8TarOpen : Bytes → Option (List TarMember) :=
  fun _ => some [⟨"readme.txt", [7]⟩]

/-- A tar oracle whose archive opens and holds a single pdf member. -/
def c8TarOpenPdf : Bytes → Option (List TarMember) :=
  fun _ => some [⟨"x.pdf", [1, 2]⟩]

/-! ## Helper lemmas -/

/-- Under persistently raising fetches every loop iteration of
download_pdf soft-fails: left more attempts and sleeps are consumed,
save_path is untouched and no temp file remains. -/
theorem download_pdf_aux_all_err (env : DLEnv) (url : String)
    (h : ∀ n, env.fetch n = none) :
    ∀ left next att sl save,
      download_pdf_aux env url left next att sl ⟨none, save⟩ =
        ⟨false, ⟨none, save⟩, att + left, sl + left⟩ := by
  intro left
  induction left with
  | zero => intro next att sl save; rfl
  | succ k ih =>
    intro next att sl save
    have h1 : att + 1 + k = att + (k + 1) := by omega
    have h2 : sl + 1 + k = sl + (k + 1) := by omega
    simp only [download_pdf_aux, runAttempt, h]
    rw [ih, h1, h2]

/-- containsSub decides contiguous-substring occurrence. -/
theorem containsSub_iff (needle hay : Bytes) :
    containsSub needle hay = true ↔ ∃ pre post, hay = pre ++ needle ++ post := by
  induction hay with
  | nil =>
    simp only [containsSub, List.isEmpty_iff]
    constructor
    · rintro rfl; exact ⟨[], [], rfl⟩
    · rintro ⟨pre, post, h⟩
      obtain ⟨h1, -⟩ := List.append_eq_nil.mp h.symm
      exact (List.append_eq_nil.mp h1).2
  | cons b rest ih =>
    simp only [containsSub, Bool.or_eq_true, decide_eq_true_eq, ih]
    constructor
    · rintro (h | ⟨pre, post, rfl⟩)
      · refine ⟨[], (b :: rest).drop needle.length, ?_⟩
        simp only [List.nil_append]
        conv_lhs => rw [← List.take_append_drop needle.length (b :: rest)]
        rw [← h]
      · exact ⟨b :: pre, post, rfl⟩
    · rintro ⟨pre, post, heq⟩
      cases pre with
      | nil =>
        left
        simp only [List.nil_append] at heq
        rw [heq, List.take_left]
      | cons p ps =>
        right
        injection heq with h1 h2
        exact ⟨ps, post, h2⟩

/-- A link list without any format="pdf" element makes the scan loop
run to completion. -/
theorem scanLinks_eq_none (links : List LinkElem)
    (h : ∀ l ∈ links, l.format ≠ some "pdf") : scanLinks links = none := by
  induction links with
  | nil => rfl
  | cons l ls ih =>
    have hl := h l (by simp)
    simp only [scanLinks, if_neg hl]
    exact ih (fun x hx => h x (by simp [hx]))

/-- The scan loop stops at the first format="pdf" element and yields
its href attribute lookup. -/
theorem scanLinks_first (pre : List LinkElem) (l : LinkElem) (post : List LinkElem)
    (hpre : ∀ x ∈ pre, x.format ≠ some "pdf") (hl : l.format = some "pdf") :
    scanLinks (pre ++ l :: post) = some l.href := by
  induction pre with
  | nil => simp [scanLinks, hl]
  | cons p ps ih =>
    have hp := hpre p (by simp)
    simp only [List.cons_append, scanLinks, if_neg hp]
    exact ih (fun x hx => hpre x (by simp [hx]))

/-- A loop iteration can only return True after the final write passed
validation. -/
theorem finishWrite_success (raw : Bytes) (fs1 : FS)
    (h : finishWrite raw = (.success, fs1)) : is_valid_pdf fs1.save = true := by
  unfold finishWrite at h
  split at h
  · next hv =>
    injection h with h1 h2
    subst h2
    exact hv
  · next hv =>
    injection h with h1 h2
    cases h1

/-- The gzip branch can only return True after the final write passed
validation. -/
theorem gzipStep_success (env : DLEnv) (raw : Bytes) (fs fs1 : FS)
    (h : gzipStep env raw fs = (.success, fs1)) : is_valid_pdf fs1.save = true := by
  unfold gzipStep at h
  split at h
  · next d hd =>
    split at h
    · injection h with h1 h2
      cases h1
    · exact finishWrite_success d fs1 h
  · injection h with h1 h2
    cases h1

/-- Every success exit of a loop iteration of download_pdf has just
validated the file at save_path. -/
theorem runAttempt_success_valid (env : DLEnv) (url : String) (n : Nat) (fs fs1 : FS)
    (h : runAttempt env url n fs = (.success, fs1)) :
    is_valid_pdf fs1.save = true := by
  unfold runAttempt at h
  split at h
  · injection h with h1 h2
    cases h1
  · next raw heq =>
    split at h
    · split at h
      · split at h
        · split at h
          · next hv =>
            injection h with h1 h2
            subst h2
            exact hv
          · exact finishWrite_success raw fs1 h
        · split at h
          · exact gzipStep_success env raw _ fs1 h
          · exact finishWrite_success raw fs1 h
      · exact gzipStep_success env raw _ fs1 h
    · exact finishWrite_success raw fs1 h

/-- The retry loop of download_pdf returns true only with a final
save_path content that passed validation. -/
theorem download_pdf_aux_ok_valid (env : DLEnv) (url : String) :
    ∀ left next att sl fs,
      (download_pdf_aux env url left next att sl fs).ok = true →
      is_valid_pdf (download_pdf_aux env url left next att sl fs).fs.save = true := by
  intro left
  induction left with
  | zero =>
    intro next att sl fs h
    simp [download_pdf_aux] at h
  | succ k ih =>
    intro next att sl fs h
    simp only [download_pdf_aux] at h ⊢
    rcases hr : runAttempt env url next fs with ⟨o, fs1⟩
    rw [hr] at h
    cases o with
    | success => simpa using runAttempt_success_valid env url next fs fs1 hr
    | hardFail => simp at h
    | softFail => exact ih _ _ _ _ (by simpa using h)

/-- Every element of the downloaded-files list produced by the driver
loop was already present or was appended after a true download_pdf on
its id resolution. -/
theorem driverLoop_mem (env : DriverEnv) (maxPdfs : Nat) :
    ∀ ids count files p, p ∈ (driverLoop env maxPdfs ids count files).2 →
      p ∈ files ∨ ∃ id, id ∈ ids ∧ env.savePathOf id = p ∧
        ∃ url, env.resolve id = some url ∧ env.download url p = true := by
  intro ids
  induction ids with
  | nil =>
    intro count files p h
    exact .inl h
  | cons id rest ih =>
    intro count files p h
    simp only [driverLoop] at h
    split at h
    · exact .inl h
    · split at h
      · rcases ih _ _ _ h with h1 | ⟨i, hmem, hsp, u, hres, hdl⟩
        · exact .inl h1
        · exact .inr ⟨i, List.mem_cons_of_mem id hmem, hsp, u, hres, hdl⟩
      · next url hres =>
        split at h
        · rcases ih _ _ _ h with h1 | ⟨i, hmem, hsp, u, hres1, hdl⟩
          · exact .inl h1
          · exact .inr ⟨i, List.mem_cons_of_mem id hmem, hsp, u, hres1, hdl⟩
        · split at h
          · next hdl =>
            rcases ih _ _ _ h with h1 | ⟨i, hmem, hsp, u, hres1, hdl1⟩
            · rcases List.mem_append.mp h1 with h2 | h2
              · exact .inl h2
              · have h3 : p = env.savePathOf id := by simpa using h2
                refine .inr ⟨id, List.mem_cons_self id rest, h3.symm, url, hres, ?_⟩
                rw [h3]
                exact hdl
            · exact .inr ⟨i, List.mem_cons_of_mem id hmem, hsp, u, hres1, hdl1⟩
          · rcases ih _ _ _ h with h1 | ⟨i, hmem, hsp, u, hres1, hdl1⟩
            · exact .inl h1
            · exact .inr ⟨i, List.mem_cons_of_mem id hmem, hsp, u, hres1, hdl1⟩

/-- The download count of the driver loop never exceeds max_pdfs when
it starts at or below it. -/
theorem driverLoop_count_le (env : DriverEnv) (maxPdfs : Nat) :
    ∀ ids count files, count ≤ maxPdfs →
      (driverLoop env maxPdfs ids count files).1 ≤ maxPdfs := by
  intro ids
  induction ids with
  | nil =>
    intro count files h
    exact h
  | cons id rest ih =>
    intro count files h
    simp only [driverLoop]
    split
    · exact h
    · next hge =>
      split
      · exact ih _ _ h
      · split
        · exact ih _ _ h
        · split
          · exact ih _ _ (by omega)
          · exact ih _ _ h

/-- Each appended file raises the download count by one: the length of
the files list tracks the count. -/
theorem driverLoop_len (env : DriverEnv) (maxPdfs : Nat) :
    ∀ ids count files,
      (driverLoop env maxPdfs ids count files).2.length + count =
        (driverLoop env maxPdfs ids count files).1 + files.length := by
  intro ids
  induction ids with
  | nil =>
    intro count files
    show files.length + count = count + files.length
    omega
  | cons id rest ih =>
    intro count files
    simp only [driverLoop]
    split
    · show files.length + count = count + files.length
      omega
    · split
      · exact ih _ _
      · split
        · exact ih _ _
        · split
          · have h := ih (count + 1) (files ++ [env.savePathOf id])
            simp only [List.length_append, List.length_cons, List.length_nil] at h
            omega
          · exact ih _ _

/-- The member scan finds nothing when no member name ends in .pdf. -/
theorem findPdfMember_eq_none (members : List TarMember)
    (h : ∀ m ∈ members, endsWithStr m.name ".pdf" = false) :
    findPdfMember members = none := by
  induction members with
  | nil => rfl
  | cons m ms ih =>
    have hm := h m (by simp)
    simp only [findPdfMember, hm, Bool.false_eq_true, if_false]
    exact ih (fun x hx => h x (by simp [hx]))

/-! ## Claim theorems -/

/-- C1: is_valid_pdf returns true exactly when the file exists, has at
least 5000 bytes, its first 5 bytes equal the ASCII header "%PDF-" and
the marker "%%EOF" occurs contiguously within its last 10 bytes; the
function is total (the model of the catch-all except), so it never
raises. -/
theorem C1_is_valid_pdf_iff (file : Option Bytes) :
    is_valid_pdf file = true ↔
      ∃ bs, file = some bs ∧ 5000 ≤ bs.length ∧ bs.take 5 = pdfHeader ∧
        ∃ pre post, lastBytes 10 bs = pre ++ eofMarker ++ post := by
  cases file with
  | none => simp [is_valid_pdf]
  | some bs =>
    simp only [is_valid_pdf]
    split
    · next hlt =>
      simp only [Bool.false_eq_true, false_iff]
      rintro ⟨bs', hbs, h5000, -, -⟩
      injection hbs with hbs
      subst hbs
      omega
    · next hge =>
      rw [Bool.and_eq_true, decide_eq_true_eq, containsSub_iff]
      constructor
      · rintro ⟨h1, h2⟩
        exact ⟨bs, rfl, by omega, h1, h2⟩
      · rintro ⟨bs', hbs, -, h1, h2⟩
        injection hbs with hbs
        subst hbs
        exact ⟨h1, h2⟩

/-- C6: the resolver yields none on a raising request or parse, yields
none when no link element has format="pdf", and otherwise yields the
href attribute of the first link element with format="pdf" (none when
that attribute is missing); being total over NetResult it never raises
to the caller. -/
theorem C6_resolver_behavior :
    (get_pdf_link_from_pmcid .err = none) ∧
    (∀ links : List LinkElem, (∀ l ∈ links, l.format ≠ some "pdf") →
        get_pdf_link_from_pmcid (.ok links) = none) ∧
    (∀ pre (l : LinkElem) post, (∀ x ∈ pre, x.format ≠ some "pdf") →
        l.format = some "pdf" →
        get_pdf_link_from_pmcid (.ok (pre ++ l :: post)) = l.href) := by
  refine ⟨rfl, ?_, ?_⟩
  · intro links h
    simp [get_pdf_link_from_pmcid, scanLinks_eq_none links h]
  · intro pre l post hpre hl
    rw [get_pdf_link_from_pmcid, scanLinks_first pre l post hpre hl]
    cases l.href <;> rfl

/-- C6 witness: a concrete response whose second element is the first
format="pdf" link. -/
theorem C6_resolver_behavior_witness :
    get_pdf_link_from_pmcid
      (.ok ([⟨some "tgz", some "x"⟩] ++ ⟨some "pdf", some "u"⟩ :: [])) = some "u" :=
  C6_resolver_behavior.2.2 [⟨some "tgz", some "x"⟩] ⟨some "pdf", some "u"⟩ []
    (by decide) rfl

/-- C7: the search client propagates a raising request or JSON parse to
the caller as an error, returns the empty list when the esearchresult
or idlist key is missing, and otherwise extracts the id list together
with the templated article links. -/
theorem C7_search_client_behavior :
    (search_pmc_articles .err = .error ()) ∧
    (∀ data : ESearchData, data.esearchresult = none →
        search_pmc_articles (.ok data) = .ok ([], [])) ∧
    (∀ r : ESearchResult, r.idlist = none →
        search_pmc_articles (.ok ⟨some r⟩) = .ok ([], [])) ∧
    (∀ ids : List String,
        search_pmc_articles (.ok ⟨some ⟨some ids⟩⟩) = .ok (ids, ids.map articleLink)) := by
  refine ⟨rfl, ?_, ?_, fun ids => rfl⟩
  · intro data h
    simp [search_pmc_articles, h]
  · intro r h
    simp [search_pmc_articles, h]

/-- C7 witness: a response with the esearchresult key missing yields
the empty id list. -/
theorem C7_search_client_behavior_witness :
    search_pmc_articles (.ok ⟨none⟩) = .ok ([], []) :=
  C7_search_client_behavior.2.1 ⟨none⟩ rfl

/-- C10: when the first format="pdf" link element carries no href
attribute, the resolver returns none (the KeyError is swallowed by the
catch-all except) without scanning any later link element. -/
theorem C10_first_pdf_link_without_href (l : LinkElem) (rest : List LinkElem)
    (hf : l.format = some "pdf") (hh : l.href = none) :
    get_pdf_link_from_pmcid (.ok (l :: rest)) = none := by
  simp [get_pdf_link_from_pmcid, scanLinks, hf, hh]

/-- C10 witness: the later link with an href is not consulted. -/
theorem C10_first_pdf_link_without_href_witness :
    get_pdf_link_from_pmcid
      (.ok [⟨some "pdf", none⟩, ⟨some "pdf", some "u"⟩]) = none :=
  C10_first_pdf_link_without_href ⟨some "pdf", none⟩ [⟨some "pdf", some "u"⟩] rfl rfl

/-- C2 (claim as stated is false): with retry budget 3, a payload
carrying the gzip magic whose decompression fails ends the whole
acquisition on the first attempt — one attempt performed, no backoff
sleep, immediate false — instead of being retried from scratch up to
the budget. -/
theorem C2_counterexample_no_retry_after_gunzip_failure :
    download_pdf c2Env "u" 3 = ⟨false, ⟨none, none⟩, 1, 0⟩ ∧ (1 : Nat) ≠ 3 := by
  decide

/-- C2 amended: when the first attempt downloads a gzip-magic payload
whose decompression fails, download_pdf removes the temp file and
returns false immediately, ending the whole acquisition after exactly
one attempt and zero sleeps, regardless of the remaining retry
budget. -/
theorem C2_gunzip_failure_ends_acquisition (env : DLEnv) (url : String)
    (retries : Nat) (raw : Bytes)
    (hret : 1 ≤ retries)
    (hfetch : env.fetch 1 = some raw)
    (hurl : endsWithStr url ".tar.gz" = false)
    (hmagic : raw.take 2 = gzipMagic)
    (hgz : env.gunzip raw = none) :
    download_pdf env url retries = ⟨false, ⟨none, none⟩, 1, 0⟩ := by
  obtain ⟨k, rfl⟩ : ∃ k, retries = k + 1 := ⟨retries - 1, by omega⟩
  simp [download_pdf, download_pdf_aux, runAttempt, hfetch, hurl, hmagic,
    gzipStep, hgz]

/-- C2 amended, witness at a concrete environment. -/
theorem C2_gunzip_failure_ends_acquisition_witness :
    download_pdf c2Env "u" 3 = ⟨false, ⟨none, none⟩, 1, 0⟩ :=
  C2_gunzip_failure_ends_acquisition c2Env "u" 3 [0x1F, 0x8B, 0]
    (by decide) rfl (by decide) (by decide) rfl

/-- C3: when every fetch of the URL raises, download_pdf performs
exactly retries attempts, sleeps the fixed 1-second backoff after each
of them, returns false, and leaves no temp file (nor any save_path
file) on disk. -/
theorem C3_persistent_failure_retries (env : DLEnv) (url : String) (retries : Nat)
    (h : ∀ n, env.fetch n = none) :
    download_pdf env url retries = ⟨false, ⟨none, none⟩, retries, retries⟩ := by
  have := download_pdf_aux_all_err env url h retries 1 0 0 none
  simpa [download_pdf] using this

/-- C3 witness at the default budget of 3 attempts. -/
theorem C3_persistent_failure_retries_witness :
    download_pdf c3Env "u" 3 = ⟨false, ⟨none, none⟩, 3, 3⟩ :=
  C3_persistent_failure_retries c3Env "u" 3 (fun _ => rfl)

/-- C9 (claim as stated is false): the raw archive bytes carry the
gzip magic and their decompression would succeed with different bytes,
yet after a successful tar extraction whose extracted file fails
validation, the attempt writes the raw bytes unchanged (never
gunzipped) over save_path and soft-fails into the next retry. -/
theorem C9_counterexample_raw_not_gunzipped :
    runAttempt c9Env "x.tar.gz" 1 ⟨none, none⟩ = (.softFail, ⟨none, some c9Raw⟩) ∧
      c9Raw.take 2 = gzipMagic ∧
      c9Env.gunzip c9Raw = some [0, 1, 2] ∧
      some c9Raw ≠ some ([0, 1, 2] : Bytes) := by
  decide

/-- C9 amended: for a ".tar.gz" URL, when tar extraction to save_path
succeeds but the extracted file fails validation, the attempt does not
fail at that point; the raw downloaded archive bytes are written
unchanged (not gunzipped, even when they carry the gzip magic) over
save_path and validated a second time, and only if that validation
also fails does the attempt end in (soft) failure. -/
theorem C9_tar_success_invalid_revalidates (env : DLEnv) (url : String) (n : Nat)
    (fs : FS) (raw : Bytes) (members : List TarMember) (m : TarMember)
    (hurl : endsWithStr url ".tar.gz" = true)
    (hfetch : env.fetch n = some raw)
    (htar : env.tarOpen raw = some members)
    (hm : findPdfMember members = some m)
    (hinv : is_valid_pdf (some m.content) = false) :
    runAttempt env url n fs =
      (if is_valid_pdf (some raw) then AttemptOut.success else AttemptOut.softFail,
        ⟨none, some raw⟩) := by
  cases hv : is_valid_pdf (some raw) <;>
    simp [runAttempt, hfetch, hurl, extract_pdf_from_tar_gz, htar, hm,
      PyRet.truthy, hinv, finishWrite, hv]

/-- C9 amended, witness at a concrete environment. -/
theorem C9_tar_success_invalid_revalidates_witness :
    runAttempt c9Env "x.tar.gz" 1 ⟨none, none⟩ =
      (if is_valid_pdf (some c9Raw) then AttemptOut.success else AttemptOut.softFail,
        ⟨none, some c9Raw⟩) :=
  C9_tar_success_invalid_revalidates c9Env "x.tar.gz" 1 ⟨none, none⟩ c9Raw
    [⟨"a.pdf", [1]⟩] ⟨"a.pdf", [1]⟩ (by decide) rfl rfl (by decide) (by decide)

/-- C4: download_pdf returns true only with a final save_path content
that passed is_valid_pdf (whichever way it was produced), and every
path in the downloaded-files list of a driver run was appended after a
true download_pdf of the url its id resolved to. -/
theorem C4_acquired_only_if_validated :
    (∀ (env : DLEnv) (url : String) (retries : Nat),
        (download_pdf env url retries).ok = true →
        is_valid_pdf (download_pdf env url retries).fs.save = true) ∧
    (∀ (denv : DriverEnv) (maxPdfs : Nat) (ids : List String) (p : String),
        p ∈ (runDriver denv maxPdfs ids).2 →
        ∃ id, id ∈ ids ∧ denv.savePathOf id = p ∧
          ∃ url, denv.resolve id = some url ∧ denv.download url p = true) := by
  constructor
  · intro env url retries h
    exact download_pdf_aux_ok_valid env url retries 1 0 0 ⟨none, none⟩ h
  · intro denv maxPdfs ids p h
    rcases driverLoop_mem denv maxPdfs ids 0 [] p h with h1 | h1
    · simp at h1
    · exact h1

/-- C4 witness: a concrete driver run with one id. -/
theorem C4_acquired_only_if_validated_witness :
    ∃ id, id ∈ ["a"] ∧ c4DriverEnv.savePathOf id = "a" ∧
      ∃ url, c4DriverEnv.resolve id = some url ∧ c4DriverEnv.download url "a" = true :=
  C4_acquired_only_if_validated.2 c4DriverEnv 5 ["a"] "a" (by decide)

/-- C5: the downloaded-files list of a driver run never exceeds
max_pdfs entries; an id whose resolution yields none is skipped and the
loop continues with the rest; and once the count has reached max_pdfs
the loop stops without attempting any further id. -/
theorem C5_driver_stops_and_skips :
    (∀ (env : DriverEnv) (maxPdfs : Nat) (ids : List String),
        (runDriver env maxPdfs ids).2.length ≤ maxPdfs) ∧
    (∀ (env : DriverEnv) (maxPdfs : Nat) (id : String) (rest : List String)
        (count : Nat) (files : List String),
        count < maxPdfs → env.resolve id = none →
        driverLoop env maxPdfs (id :: rest) count files =
          driverLoop env maxPdfs rest count files) ∧
    (∀ (env : DriverEnv) (maxPdfs : Nat) (id : String) (rest : List String)
        (count : Nat) (files : List String), maxPdfs ≤ count →
        driverLoop env maxPdfs (id :: rest) count files = (count, files)) := by
  refine ⟨?_, ?_, ?_⟩
  · intro env maxPdfs ids
    have h1 := driverLoop_count_le env maxPdfs ids 0 [] (Nat.zero_le _)
    have h2 := driverLoop_len env maxPdfs ids 0 []
    simp only [List.length_nil] at h2
    simp only [runDriver]
    omega
  · intro env maxPdfs id rest count files hlt hres
    have hn : ¬ maxPdfs ≤ count := by omega
    simp [driverLoop, hn, hres]
  · intro env maxPdfs id rest count files hge
    simp [driverLoop, hge]

/-- C5 witness: a non-resolving head id is skipped. -/
theorem C5_driver_stops_and_skips_witness :
    driverLoop c5DriverEnv 2 ["a", "b"] 0 [] = driverLoop c5DriverEnv 2 ["b"] 0 [] :=
  C5_driver_stops_and_skips.2.1 c5DriverEnv 2 "a" ["b"] 0 [] (by decide) rfl

/-- C8 (claim as stated is false): an archive that opens fine but
holds no member named *.pdf makes extract_pdf_from_tar_gz fall off the
member loop and return the implicit None — not False. -/
theorem C8_counterexample_none_not_false :
    extract_pdf_from_tar_gz c8TarOpen (some [1]) none = (.pyNone, none) ∧
      PyRet.pyNone ≠ PyRet.pyFalse := by
  decide

/-- C8 amended: extract_pdf_from_tar_gz extracts the first member
whose name ends in ".pdf", moves its content to the output path and
returns True; when the archive cannot be opened (including a missing
file) the exception is caught and it returns False; when the archive
opens but no member name ends in ".pdf" it returns the implicit None
(falsy but distinct from False); it never raises. -/
theorem C8_extract_first_pdf_member (tarOpen : Bytes → Option (List TarMember)) :
    (∀ save, extract_pdf_from_tar_gz tarOpen none save = (.pyFalse, save)) ∧
    (∀ bs save, tarOpen bs = none →
        extract_pdf_from_tar_gz tarOpen (some bs) save = (.pyFalse, save)) ∧
    (∀ bs save members, tarOpen bs = some members →
        (∀ m ∈ members, endsWithStr m.name ".pdf" = false) →
        extract_pdf_from_tar_gz tarOpen (some bs) save = (.pyNone, save)) ∧
    (∀ bs save members m, tarOpen bs = some members →
        findPdfMember members = some m →
        extract_pdf_from_tar_gz tarOpen (some bs) save = (.pyTrue, some m.content)) := by
  refine ⟨fun save => rfl, ?_, ?_, ?_⟩
  · intro bs save h
    simp [extract_pdf_from_tar_gz, h]
  · intro bs save members h hmem
    simp [extract_pdf_from_tar_gz, h, findPdfMember_eq_none members hmem]
  · intro bs save members m h hm
    simp [extract_pdf_from_tar_gz, h, hm]

/-- C8 amended, witness: the single pdf member is extracted onto the
output path. -/
theorem C8_extract_first_pdf_member_witness :
    extract_pdf_from_tar_gz c8TarOpenPdf (some [5]) (some [9]) =
      (.pyTrue, some [1, 2]) :=
  (C8_extract_first_pdf_member c8TarOpenPdf).2.2.2 [5] (some [9])
    [⟨"x.pdf", [1, 2]⟩] ⟨"x.pdf", [1, 2]⟩ rfl (by decide)


end PMCRetrieval
